import Mathlib

/-!
Verification development for the tweedhat tweet scraper (`scrape.py`).

The Lean definitions below are a shallow embedding of `TweetScraper`:
`_extract_tweet_data`, `_extract_nitter_tweet_data`, the two pagination
loops of `scrape_tweets`, and `save_tweets`.  DOM lookups are modelled by
`Option`-valued fields of node structures (`none` = the selector missed,
raising `NoSuchElementException` in the source, which the source catches);
an attribute read that can return Python `None` is an inner `Option`.
Python string primitives (`split`, `lower`, `isdigit`, `startswith`,
substring test) are re-implemented over `String.data` character lists so
that every definition evaluates by kernel reduction.
-/

namespace Tweedhat

/-- Does `sub` occur as a contiguous substring of the character list?
Models Python's `sub in s`. -/
def listContains (sub : List Char) : List Char → Bool
  | [] => sub.isEmpty
  | c :: rest => sub.isPrefixOf (c :: rest) || listContains sub rest

/-- Python `sub in s` on strings. -/
def strContainsB (s sub : String) : Bool := listContains sub.data s.data

/-- Python `s.startswith(t)`. -/
def pyStartsWith (s t : String) : Bool := t.data.isPrefixOf s.data

/-- Python `s.lower()` (ASCII case folding, which is all the source compares). -/
def strToLower (s : String) : String := ⟨s.data.map Char.toLower⟩

/-- Splitting worker for `pySplit`: `fuel` bounds the traversal so the
recursion is structural; it is called with `fuel = length` of the input. -/
def splitOnListAux (sep : List Char) : Nat → List Char → List Char → List (List Char)
  | 0, cur, rest => [cur ++ rest]
  | _ + 1, cur, [] => [cur]
  | fuel + 1, cur, c :: rest =>
    if sep.isPrefixOf (c :: rest) then
      cur :: splitOnListAux sep fuel [] ((c :: rest).drop sep.length)
    else
      splitOnListAux sep fuel (cur ++ [c]) rest

/-- Python `s.split(sep)` for a non-empty separator `sep`. -/
def pySplit (s sep : String) : List String :=
  if sep.data.isEmpty then [s]
  else (splitOnListAux sep.data s.data.length [] s.data).map List.asString

/-- Split a character list at every character satisfying `p`, keeping
empty chunks. -/
def splitByPred (p : Char → Bool) : List Char → List (List Char)
  | [] => [[]]
  | c :: rest =>
    if p c then [] :: splitByPred p rest
    else
      match splitByPred p rest with
      | [] => [[c]]
      | g :: gs => (c :: g) :: gs

/-- Python `s.split()` (split on whitespace runs, dropping empty chunks). -/
def pySplitWs (s : String) : List String :=
  ((splitByPred Char.isWhitespace s.data).filter (· ≠ [])).map List.asString

/-- Python `s.isdigit()` (restricted to ASCII digits, which is what the
scraped count strings contain). -/
def pyIsDigit (s : String) : Bool := !s.data.isEmpty && s.data.all Char.isDigit

/-- Numeric value of a digit string. -/
def digitsToNat (l : List Char) : Nat := l.foldl (fun n c => n * 10 + (c.toNat - 48)) 0

/-- `int(t) if t.isdigit() else 0` — the count parser used for every
engagement stat in both extractors. -/
def parseCount (t : String) : Int :=
  if pyIsDigit t then (digitsToNat t.data : Int) else 0

/-- `self.driver.current_url.split('/status')[0]` — the base used to
absolutize origin-relative media URIs. -/
def pyBase (u : String) : String := (pySplit u "/status").headD ""

/-- Relative-to-absolute URI conversion as written in the source:
`if src.startswith('/'): src = f"{base_url}{src}"`. -/
def absolutize (u src : String) : String :=
  if pyStartsWith src "/" then pyBase u ++ src else src

/-- Engagement stats.  The Python code stores them in a dict that may lack
keys, so each field is an `Option`: `none` models an absent key. -/
structure Stats where
  replies : Option Int
  retweets : Option Int
  likes : Option Int
deriving Repr, DecidableEq

/-- The record returned by `_extract_tweet_data` / `_extract_nitter_tweet_data`.
`timestamp` and `video_preview_url` can be Python `None`, hence `Option`. -/
structure TweetData where
  id : String
  url : String
  text : String
  timestamp : Option String
  stats : Stats
  media : List String
  has_video : Bool
  has_media : Bool
  video_preview_url : Option String
  source : String
deriving Repr, DecidableEq

/-- An x.com tweet DOM node, as seen through the element lookups that
`_extract_tweet_data` performs.  Outer `none` = the selector missed
(`NoSuchElementException`); for attribute reads the inner `Option` is the
attribute value (`none` = Python `None`). -/
structure XNode where
  statusLink : Option (Option String)
  tweetText : Option String
  timeDatetime : Option (Option String)
  replyText : Option String
  retweetText : Option String
  likeText : Option String
  mediaImgSrcs : List (Option String)
  videoPresent : Bool
  videoImg : Option (Option String)
deriving Repr, DecidableEq

/-- A nitter timeline-item node, as seen through `_extract_nitter_tweet_data`'s
lookups.  `mediaSel1`..`mediaSel4` are the four image-selector cascades
(`.still-image`, `.attachment img`, `.media-image img`,
`.tweet-body img:not(.emoji):not(.profile-pic)`). -/
structure NNode where
  tweetLink : Option (Option String)
  tweetContent : Option String
  tweetDateTitle : Option (Option String)
  statsText : Option String
  mediaSel1 : List (Option String)
  mediaSel2 : List (Option String)
  mediaSel3 : List (Option String)
  mediaSel4 : List (Option String)
  videoPresent : Bool
  videoImg : Option (Option String)
  videoPoster : Option (Option String)
deriving Repr, DecidableEq

/-- x.com id/url step: on selector miss `tweet_id = "unknown"` and
`tweet_url` stays unbound (the final dict then uses `""`); a `None` href
raises `AttributeError` at `.split`, which only the outer handler catches,
so the whole record becomes `None`; otherwise
`tweet_id = url.split("/status/")[1].split("?")[0]`, where a missing
`"/status/"` raises `IndexError` → whole record `None`. -/
def xIdUrl : Option (Option String) → Option (String × Option String)
  | none => some ("unknown", none)
  | some none => none
  | some (some url) =>
    match pySplit url "/status/" with
    | _ :: rest :: _ => some ((pySplit rest "?").headD "", some url)
    | _ => none

/-- nitter id/url step: on selector miss both default; a `None` href is an
`AttributeError` → whole record `None`; otherwise
`tweet_id = url.split("/")[-1]`. -/
def nIdUrl : Option (Option String) → Option (String × String)
  | none => some ("unknown", "")
  | some none => none
  | some (some url) => some ((pySplit url "/").getLastD "", url)

/-- The x.com media-image collection loop:
`if src and "profile" not in src and src not in media_links: media_links.append(src)`.
Note: no relative-URL conversion happens here in the source. -/
def collectXImages : List (Option String) → List String → List String
  | [], acc => acc
  | none :: rest, acc => collectXImages rest acc
  | some src :: rest, acc =>
    if src = "" then collectXImages rest acc
    else if strContainsB src "profile" then collectXImages rest acc
    else if src ∈ acc then collectXImages rest acc
    else collectXImages rest (acc ++ [src])

/-- The nitter media-image collection loop: same guard, but the membership
test uses the RAW `src` while the appended entry is the CONVERTED one. -/
def collectNitterImages (u : String) : List (Option String) → List String → List String
  | [], acc => acc
  | none :: rest, acc => collectNitterImages u rest acc
  | some src :: rest, acc =>
    if src = "" then collectNitterImages u rest acc
    else if strContainsB src "profile" then collectNitterImages u rest acc
    else if src ∈ acc then collectNitterImages u rest acc
    else collectNitterImages u rest (acc ++ [absolutize u src])

/-- The video-preview tagging step, identical in all three occurrences in
the source: `if vurl in media_links: media_links.remove(vurl)` (removes the
first occurrence) then `media_links.append(f"video_preview:{vurl}")`. -/
def videoTagPhase (images : List String) (vurl : String) : List String :=
  images.erase vurl ++ ["video_preview:" ++ vurl]

/-- Shared shape of one poster-image attempt: given the img element's
lookup result, update `(media_links, video_preview_url)`. -/
def posterStep (u : String) (media0 : List String) :
    Option String → List String × Option String
  | none => (media0, none)
  | some s =>
    if s = "" then (media0, some s)
    else
      let s' := absolutize u s
      (videoTagPhase media0 s', some s')

/-- The x.com video phase of `_extract_tweet_data`. -/
def xVideoPhase (node : XNode) (u : String) (media0 : List String) :
    List String × Option String :=
  if node.videoPresent then
    match node.videoImg with
    | none => (media0, none)
    | some attr => posterStep u media0 attr
  else (media0, none)

/-- The nitter video phase: primary `img` lookup, then a `.poster`
fallback when the primary selector misses. -/
def nitterVideoPhase (node : NNode) (u : String) (media0 : List String) :
    List String × Option String :=
  if node.videoPresent then
    match node.videoImg with
    | some attr => posterStep u media0 attr
    | none =>
      match node.videoPoster with
      | none => (media0, none)
      | some attr => posterStep u media0 attr
  else (media0, none)

/-- `_extract_tweet_data` (x.com backend).  `u` is `driver.current_url`. -/
def extractTweetData (node : XNode) (u : String) : Option TweetData :=
  match xIdUrl node.statusLink with
  | none => none
  | some (tid, turl) =>
    let text := node.tweetText.getD ""
    let timestamp : Option String :=
      match node.timeDatetime with
      | none => some ""
      | some a => a
    let replies : Int := match node.replyText with | none => 0 | some t => parseCount t
    let retweets : Int := match node.retweetText with | none => 0 | some t => parseCount t
    let likes : Int := match node.likeText with | none => 0 | some t => parseCount t
    let media0 := collectXImages node.mediaImgSrcs []
    let v := xVideoPhase node u media0
    some
      { id := tid
        url := turl.getD ""
        text := text
        timestamp := timestamp
        stats := ⟨some replies, some retweets, some likes⟩
        media := v.1
        has_video := node.videoPresent
        has_media := !v.1.isEmpty || node.videoPresent
        video_preview_url := v.2
        source := "x.com" }

/-- The nitter stats parsing loop over `stats_text.split('\n')`.  Returns
`none` when `stat.split()[0]` would raise `IndexError` (a matching line
with no tokens — unreachable in practice but part of the control flow:
the exception resets the whole dict to zeros). -/
def parseNitterStatsLoop : List String → Stats → Option Stats
  | [], st => some st
  | line :: rest, st =>
    if strContainsB (strToLower line) "repl" then
      match pySplitWs line with
      | [] => none
      | t :: _ => parseNitterStatsLoop rest { st with replies := some (parseCount t) }
    else if strContainsB (strToLower line) "retweet" then
      match pySplitWs line with
      | [] => none
      | t :: _ => parseNitterStatsLoop rest { st with retweets := some (parseCount t) }
    else if strContainsB (strToLower line) "like" then
      match pySplitWs line with
      | [] => none
      | t :: _ => parseNitterStatsLoop rest { st with likes := some (parseCount t) }
    else parseNitterStatsLoop rest st

/-- nitter stats extraction: a missing `.tweet-stats` element (or an
`IndexError` during parsing) yields `{replies: 0, retweets: 0, likes: 0}`;
otherwise the dict starts EMPTY and only keys whose line matched are set. -/
def nitterStats : Option String → Stats
  | none => ⟨some 0, some 0, some 0⟩
  | some txt =>
    match parseNitterStatsLoop (pySplit txt "\n") ⟨none, none, none⟩ with
    | some st => st
    | none => ⟨some 0, some 0, some 0⟩

/-- The image-selector cascade of `_extract_nitter_tweet_data`: the first
selector with a non-empty result wins. -/
def nitterSelect (node : NNode) : List (Option String) :=
  if !node.mediaSel1.isEmpty then node.mediaSel1
  else if !node.mediaSel2.isEmpty then node.mediaSel2
  else if !node.mediaSel3.isEmpty then node.mediaSel3
  else node.mediaSel4

/-- `_extract_nitter_tweet_data` (nitter backend).  `u` is `driver.current_url`. -/
def extractNitterTweetData (node : NNode) (u : String) : Option TweetData :=
  match nIdUrl node.tweetLink with
  | none => none
  | some (tid, turl) =>
    let text := node.tweetContent.getD ""
    let timestamp : Option String :=
      match node.tweetDateTitle with
      | none => some ""
      | some a => a
    let media0 := collectNitterImages u (nitterSelect node) []
    let v := nitterVideoPhase node u media0
    some
      { id := tid
        url := turl
        text := text
        timestamp := timestamp
        stats := nitterStats node.statsText
        media := v.1
        has_video := node.videoPresent
        has_media := !v.1.isEmpty || node.videoPresent
        video_preview_url := v.2
        source := "nitter" }

/-- Truthiness-faithful cap test:
`if self.max_tweets and len(tweets) >= self.max_tweets` (Python `None` and
`0` are both falsy). -/
def capReached : Option Nat → Nat → Bool
  | none, _ => false
  | some m, k => !(m == 0) && (m ≤ k)

/-- The nitter extraction loop of `scrape_tweets`: append each non-`None`
record, returning early (`Bool` = early return taken) when the cap is
reached; per-node exceptions are skipped. -/
def nitterLoop (u : String) (mt : Option Nat) :
    List NNode → List TweetData → List TweetData × Bool
  | [], acc => (acc, false)
  | n :: rest, acc =>
    match extractNitterTweetData n u with
    | none => nitterLoop u mt rest acc
    | some d =>
      let acc' := acc ++ [d]
      if capReached mt acc'.length then (acc', true)
      else nitterLoop u mt rest acc'

/-- One scroll-cycle's inner `for tweet_element in tweet_elements[len(tweets):]`
loop of the x.com path: appends non-`None` extractions and checks the cap
after EVERY node (the check sits outside the `if tweet_data:` block).
Returns `(tweets, cap-return-taken, number of nodes consumed)`. -/
def processNodes (u : String) (mt : Option Nat) :
    List XNode → List TweetData → List TweetData × Bool × Nat
  | [], acc => (acc, false, 0)
  | n :: rest, acc =>
    let acc' := match extractTweetData n u with
      | some d => acc ++ [d]
      | none => acc
    if capReached mt acc'.length then (acc', true, 1)
    else
      let r := processNodes u mt rest acc'
      (r.1, r.2.1, r.2.2 + 1)

/-- Result of the x.com scroll loop: the tweet list, the number of scroll
cycles executed, and per cycle the pair
(start index into the DOM node list, number of nodes consumed). -/
structure ScrollResult where
  tweets : List TweetData
  cycles : Nat
  trace : List (Nat × Nat)
deriving Repr, DecidableEq

/-- The `while scroll_count < max_scrolls` loop of the x.com path.
`dom i` is the DOM node list found in cycle `i`; `h j` is the `j`-th
`document.body.scrollHeight` reading (reading 0 is the initial
`last_height`).  `fuel` is `max_scrolls - scroll_count`, so the loop runs
at most `fuel` further cycles; on an unchanged height it re-reads once
after an extended wait and breaks if still unchanged. -/
def scrollLoopAux (dom : Nat → List XNode) (h : Nat → Nat) (u : String)
    (mt : Option Nat) :
    Nat → Nat → Nat → Nat → List TweetData → List (Nat × Nat) → ScrollResult
  | 0, cycle, _, _, tweets, tr => ⟨tweets, cycle, tr⟩
  | fuel + 1, cycle, readIdx, lastHeight, tweets, tr =>
    let start := tweets.length
    let res := processNodes u mt ((dom cycle).drop start) tweets
    let tweets' := res.1
    let tr' := tr ++ [(start, res.2.2)]
    if res.2.1 then ⟨tweets', cycle + 1, tr'⟩
    else
      let nh := h readIdx
      if nh = lastHeight then
        let nh2 := h (readIdx + 1)
        if nh2 = lastHeight then ⟨tweets', cycle + 1, tr'⟩
        else scrollLoopAux dom h u mt fuel (cycle + 1) (readIdx + 2) nh2 tweets' tr'
      else scrollLoopAux dom h u mt fuel (cycle + 1) (readIdx + 1) nh tweets' tr'

/-- `max_scrolls = 30`. -/
def maxScrolls : Nat := 30

/-- The x.com pagination loop of `scrape_tweets`, started on an empty
tweet list with the initial height reading. -/
def scrapeXcomLoop (dom : Nat → List XNode) (h : Nat → Nat) (u : String)
    (mt : Option Nat) : ScrollResult :=
  scrollLoopAux dom h u mt maxScrolls 0 1 (h 0) [] []

/-- Backends, in the order `scrape_tweets` can attempt them. -/
inductive Backend
  | mirror
  | origin
deriving Repr, DecidableEq

/-- Outcome of the environment during the nitter attempt: whether
navigation raised, the URL after navigation (redirect detection), whether
the wait for `.timeline-item` timed out, and the timeline nodes found. -/
structure NitterAttempt where
  navError : Bool
  currentUrl : String
  timeout : Bool
  elements : List NNode
deriving Repr

/-- The backend-selection skeleton of `scrape_tweets`: try nitter first;
fall through to the x.com path (modelled opaquely as `originResult`) on
navigation error, redirect away from `nitter.net`, wait timeout, or an
empty nitter result.  Also returns the list of backends attempted. -/
def scrapeTweets (na : NitterAttempt) (mt : Option Nat)
    (originResult : List TweetData) : List TweetData × List Backend :=
  if na.navError then (originResult, [Backend.mirror, Backend.origin])
  else if !strContainsB na.currentUrl "nitter.net" then
    (originResult, [Backend.mirror, Backend.origin])
  else if na.timeout then (originResult, [Backend.mirror, Backend.origin])
  else
    let r := nitterLoop na.currentUrl mt na.elements []
    if r.2 then (r.1, [Backend.mirror])
    else if !r.1.isEmpty then (r.1, [Backend.mirror])
    else (originResult, [Backend.mirror, Backend.origin])

/-- The JSON object `save_tweets` writes. -/
structure SavedData where
  username : String
  scraped_at : String
  tweet_count : Nat
  tweets : List TweetData
deriving Repr, DecidableEq

/-- `save_tweets`: empty list → return `None` without writing; otherwise
write `{username, scraped_at, tweet_count: len(tweets), tweets}` to the
resolved output path and return that path.  The happy-path write is
modelled as the returned `(path, data)` pair. -/
def save_tweets (username scraped_at : String) (tweets : List TweetData)
    (outputFile : String) : Option (String × SavedData) :=
  if tweets.isEmpty then none
  else some (outputFile, ⟨username, scraped_at, tweets.length, tweets⟩)

/-! ### Helper lemmas about the loops -/

/-- With no cap, the per-cycle x.com loop appends exactly the non-`None`
extractions, in order, consuming every node. -/
theorem processNodes_none_eq (u : String) :
    ∀ (nodes : List XNode) (acc : List TweetData),
      processNodes u none nodes acc =
        (acc ++ nodes.filterMap (fun n => extractTweetData n u), false, nodes.length)
  | [], acc => by simp [processNodes]
  | n :: rest, acc => by
    cases hx : extractTweetData n u with
    | none =>
      simp [processNodes, capReached, hx, processNodes_none_eq u rest acc]
    | some d =>
      simp [processNodes, capReached, hx, processNodes_none_eq u rest (acc ++ [d])]

/-- With no cap, the nitter loop appends exactly the non-`None`
extractions, in order. -/
theorem nitterLoop_none_eq (u : String) :
    ∀ (nodes : List NNode) (acc : List TweetData),
      nitterLoop u none nodes acc =
        (acc ++ nodes.filterMap (fun n => extractNitterTweetData n u), false)
  | [], acc => by simp [nitterLoop]
  | n :: rest, acc => by
    cases hx : extractNitterTweetData n u with
    | none => simp [nitterLoop, capReached, hx, nitterLoop_none_eq u rest acc]
    | some d => simp [nitterLoop, capReached, hx, nitterLoop_none_eq u rest (acc ++ [d])]

/-- Cap invariant for the per-cycle x.com loop: starting strictly below the
cap, the result never exceeds it, and strictly stays below it unless the
early return fired. -/
theorem processNodes_capped_le (u : String) (m : Nat) (hm : 0 < m) :
    ∀ (nodes : List XNode) (acc : List TweetData), acc.length < m →
      (processNodes u (some m) nodes acc).1.length ≤ m ∧
      ((processNodes u (some m) nodes acc).2.1 = false →
        (processNodes u (some m) nodes acc).1.length < m)
  | [], acc, hlt => by simp [processNodes]; omega
  | n :: rest, acc, hlt => by
    cases hx : extractTweetData n u with
    | none =>
      have hcap : capReached (some m) acc.length = false := by
        simp [capReached]; omega
      have ih := processNodes_capped_le u m hm rest acc hlt
      simp [processNodes, hx, hcap]
      exact ih
    | some d =>
      by_cases hfull : m ≤ acc.length + 1
      · have hcap : capReached (some m) (acc.length + 1) = true := by
          simp [capReached]; omega
        simp [processNodes, hx, hcap]
        omega
      · have hcap : capReached (some m) (acc.length + 1) = false := by
          simp [capReached]; omega
        have ih := processNodes_capped_le u m hm rest (acc ++ [d]) (by simp; omega)
        simp only [List.length_append, List.length_singleton] at ih
        simp [processNodes, hx, hcap]
        exact ih
  termination_by nodes => nodes.length

/-- Cap invariant for the nitter loop. -/
theorem nitterLoop_capped_le (u : String) (m : Nat) (hm : 0 < m) :
    ∀ (nodes : List NNode) (acc : List TweetData), acc.length < m →
      (nitterLoop u (some m) nodes acc).1.length ≤ m
  | [], acc, hlt => by simp [nitterLoop]; omega
  | n :: rest, acc, hlt => by
    cases hx : extractNitterTweetData n u with
    | none =>
      simp [nitterLoop, hx]
      exact nitterLoop_capped_le u m hm rest acc hlt
    | some d =>
      by_cases hfull : m ≤ acc.length + 1
      · have hcap : capReached (some m) (acc.length + 1) = true := by
          simp [capReached]; omega
        simp [nitterLoop, hx, hcap]
        omega
      · have hcap : capReached (some m) (acc.length + 1) = false := by
          simp [capReached]; omega
        have ih := nitterLoop_capped_le u m hm rest (acc ++ [d]) (by simp; omega)
        simp [nitterLoop, hx, hcap]
        exact ih
  termination_by nodes => nodes.length

/-- The scroll loop preserves the cap bound. -/
theorem scrollLoopAux_len_le (dom : Nat → List XNode) (h : Nat → Nat)
    (u : String) (m : Nat) (hm : 0 < m) :
    ∀ (fuel cycle ri lh : Nat) (tweets : List TweetData) (tr : List (Nat × Nat)),
      tweets.length < m →
      (scrollLoopAux dom h u (some m) fuel cycle ri lh tweets tr).tweets.length ≤ m
  | 0, cycle, ri, lh, tweets, tr, hlt => by
    simp [scrollLoopAux]; omega
  | fuel + 1, cycle, ri, lh, tweets, tr, hlt => by
    have hp := processNodes_capped_le u m hm ((dom cycle).drop tweets.length) tweets hlt
    simp only [scrollLoopAux]
    cases hc : (processNodes u (some m) ((dom cycle).drop tweets.length) tweets).2.1 with
    | true => simp [hc]; rw [hc] at hp; exact hp.1
    | false =>
      rw [hc] at hp
      have hlt' := hp.2 rfl
      simp only [hc, Bool.false_eq_true, if_false]
      split
      · split
        · exact hp.1
        · exact scrollLoopAux_len_le dom h u m hm fuel _ _ _ _ _ hlt'
      · exact scrollLoopAux_len_le dom h u m hm fuel _ _ _ _ _ hlt'

/-- The scroll loop executes at most `fuel` further cycles. -/
theorem scrollLoopAux_cycles_le (dom : Nat → List XNode) (h : Nat → Nat)
    (u : String) (mt : Option Nat) :
    ∀ (fuel cycle ri lh : Nat) (tweets : List TweetData) (tr : List (Nat × Nat)),
      (scrollLoopAux dom h u mt fuel cycle ri lh tweets tr).cycles ≤ cycle + fuel
  | 0, cycle, ri, lh, tweets, tr => by simp [scrollLoopAux]
  | fuel + 1, cycle, ri, lh, tweets, tr => by
    simp only [scrollLoopAux]
    split
    · simp
    · split
      · split
        · simp
        · have := scrollLoopAux_cycles_le dom h u mt fuel (cycle + 1)
            (ri + 2) (h (ri + 1))
            (processNodes u mt ((dom cycle).drop tweets.length) tweets).1
            (tr ++ [(tweets.length,
              (processNodes u mt ((dom cycle).drop tweets.length) tweets).2.2)])
          omega
      · have := scrollLoopAux_cycles_le dom h u mt fuel (cycle + 1)
          (ri + 1) (h ri)
          (processNodes u mt ((dom cycle).drop tweets.length) tweets).1
          (tr ++ [(tweets.length,
            (processNodes u mt ((dom cycle).drop tweets.length) tweets).2.2)])
        omega

/-- When the next two height readings already match `lastHeight`, the
cycle either cap-returns or breaks: exactly one more cycle runs. -/
theorem scrollLoopAux_break_eq (dom : Nat → List XNode) (h : Nat → Nat)
    (u : String) (mt : Option Nat) (fuel cycle ri lh : Nat)
    (tweets : List TweetData) (tr : List (Nat × Nat))
    (h1 : h ri = lh) (h2 : h (ri + 1) = lh) :
    (scrollLoopAux dom h u mt (fuel + 1) cycle ri lh tweets tr).cycles = cycle + 1 := by
  simp only [scrollLoopAux, h1, h2, if_pos rfl]
  split <;> rfl

/-- Convergence: once the height readings are constant from the current
read index on, at most two further cycles run (one to adopt the final
height, one to observe it unchanged twice and break). -/
theorem scrollLoopAux_converge (dom : Nat → List XNode) (h : Nat → Nat)
    (u : String) (mt : Option Nat) (c : Nat) :
    ∀ (fuel cycle ri lh : Nat) (tweets : List TweetData) (tr : List (Nat × Nat)),
      (∀ j, ri ≤ j → h j = c) →
      (scrollLoopAux dom h u mt fuel cycle ri lh tweets tr).cycles ≤ cycle + 2 := by
  intro fuel
  match fuel with
  | 0 => intro cycle ri lh tweets tr _; simp [scrollLoopAux]
  | fuel + 1 =>
    intro cycle ri lh tweets tr hc
    by_cases hlh : c = lh
    · have hb := scrollLoopAux_break_eq dom h u mt fuel cycle ri lh tweets tr
        (by rw [hc ri (le_refl ri)]; exact hlh.symm ▸ rfl)
        (by rw [hc (ri + 1) (by omega)]; exact hlh.symm ▸ rfl)
      omega
    · simp only [scrollLoopAux]
      split
      · simp
      · rw [hc ri (le_refl ri)]
        rw [if_neg (fun heq => hlh heq)]
        match fuel with
        | 0 => simp [scrollLoopAux]
        | fuel' + 1 =>
          have hb := scrollLoopAux_break_eq dom h u mt fuel' (cycle + 1) (ri + 1) c
            (processNodes u mt ((dom cycle).drop tweets.length) tweets).1
            (tr ++ [(tweets.length, (processNodes u mt ((dom cycle).drop tweets.length) tweets).2.2)])
            (hc (ri + 1) (by omega)) (hc (ri + 2) (by omega))
          omega

/-- A per-cycle trace is consistent from start position `s` when each
cycle starts where the previous one stopped. -/
def TraceOK : Nat → List (Nat × Nat) → Prop
  | _, [] => True
  | s, e :: rest => e.1 = s ∧ TraceOK (e.1 + e.2) rest

/-- When every node of the cycle extracts non-`None`, the tweet count
advances by exactly the number of nodes consumed. -/
theorem processNodes_consumed_len (u : String) (mt : Option Nat) :
    ∀ (nodes : List XNode) (acc : List TweetData),
      (∀ n ∈ nodes, extractTweetData n u ≠ none) →
      (processNodes u mt nodes acc).1.length =
        acc.length + (processNodes u mt nodes acc).2.2
  | [], acc, _ => by simp [processNodes]
  | n :: rest, acc, H => by
    cases hx : extractTweetData n u with
    | none => exact absurd hx (H n (by simp))
    | some d =>
      have ih := processNodes_consumed_len u mt rest (acc ++ [d])
        (fun n hn => H n (by simp [hn]))
      simp only [processNodes, hx]
      split
      · simp
      · simp only []
        simp at ih
        simp [ih]
        omega
  termination_by nodes => nodes.length

/-- When every DOM node extracts non-`None`, the scroll loop's trace
extends the accumulator with a consistent trace starting at the current
tweet count: each cycle processes exactly the suffix after the previous
cycle's nodes. -/
theorem scrollLoopAux_trace_ok (dom : Nat → List XNode) (h : Nat → Nat)
    (u : String) (mt : Option Nat)
    (H : ∀ (i : Nat), ∀ n ∈ dom i, extractTweetData n u ≠ none) :
    ∀ (fuel cycle ri lh : Nat) (tweets : List TweetData) (tr : List (Nat × Nat)),
      ∃ ext, (scrollLoopAux dom h u mt fuel cycle ri lh tweets tr).trace = tr ++ ext
        ∧ TraceOK tweets.length ext
  | 0, cycle, ri, lh, tweets, tr => ⟨[], by simp [scrollLoopAux], trivial⟩
  | fuel + 1, cycle, ri, lh, tweets, tr => by
    have Hcyc : ∀ n ∈ (dom cycle).drop tweets.length, extractTweetData n u ≠ none :=
      fun n hn => H cycle n (List.drop_subset _ _ hn)
    have hlen := processNodes_consumed_len u mt ((dom cycle).drop tweets.length)
      tweets Hcyc
    simp only [scrollLoopAux]
    split
    · exact ⟨[(tweets.length, (processNodes u mt ((dom cycle).drop tweets.length) tweets).2.2)],
        by simp, ⟨rfl, trivial⟩⟩
    · split
      · split
        · exact ⟨[(tweets.length, (processNodes u mt ((dom cycle).drop tweets.length) tweets).2.2)],
            by simp, ⟨rfl, trivial⟩⟩
        · obtain ⟨ext, hext, hok⟩ := scrollLoopAux_trace_ok dom h u mt H fuel (cycle + 1)
            (ri + 2) (h (ri + 1))
            (processNodes u mt ((dom cycle).drop tweets.length) tweets).1
            (tr ++ [(tweets.length,
              (processNodes u mt ((dom cycle).drop tweets.length) tweets).2.2)])
          refine ⟨(tweets.length,
            (processNodes u mt ((dom cycle).drop tweets.length) tweets).2.2) :: ext,
            by simpa using hext, rfl, ?_⟩
          rw [← hlen]
          exact hok
      · obtain ⟨ext, hext, hok⟩ := scrollLoopAux_trace_ok dom h u mt H fuel (cycle + 1)
          (ri + 1) (h ri)
          (processNodes u mt ((dom cycle).drop tweets.length) tweets).1
          (tr ++ [(tweets.length,
            (processNodes u mt ((dom cycle).drop tweets.length) tweets).2.2)])
        refine ⟨(tweets.length,
          (processNodes u mt ((dom cycle).drop tweets.length) tweets).2.2) :: ext,
          by simpa using hext, rfl, ?_⟩
        rw [← hlen]
        exact hok

/-- In a consistent trace every entry starts at or after `s`. -/
theorem traceOK_start_le :
    ∀ (tr : List (Nat × Nat)) (s k : Nat), TraceOK s tr → k < tr.length →
      s ≤ (tr.getD k (0, 0)).1
  | [], s, k, _, hk => by simp at hk
  | e :: rest, s, 0, hok, _ => by
    have h1 : e.1 = s := hok.1
    simp only [List.getD_cons_zero]
    omega
  | e :: rest, s, k + 1, hok, hk => by
    have h1 : e.1 = s := hok.1
    have := traceOK_start_le rest (e.1 + e.2) k hok.2 (by simpa using hk)
    simp only [List.getD_cons_succ]
    omega

/-- In a consistent trace the index ranges of distinct cycles are
disjoint: an earlier cycle ends at or before a later cycle starts. -/
theorem traceOK_disjoint :
    ∀ (tr : List (Nat × Nat)) (s i j : Nat), TraceOK s tr → i < j → j < tr.length →
      (tr.getD i (0, 0)).1 + (tr.getD i (0, 0)).2 ≤ (tr.getD j (0, 0)).1
  | [], s, i, j, _, _, hj => by simp at hj
  | e :: rest, s, 0, j, hok, hij, hj => by
    match j, hij with
    | j' + 1, _ =>
      have h1 : e.1 = s := hok.1
      have := traceOK_start_le rest (e.1 + e.2) j' hok.2 (by simpa using hj)
      simp only [List.getD_cons_zero, List.getD_cons_succ]
      omega
  | e :: rest, s, i + 1, j, hok, hij, hj => by
    match j, hij with
    | j' + 1, hij =>
      have := traceOK_disjoint rest (e.1 + e.2) i j' hok.2 (by omega) (by simpa using hj)
      simp only [List.getD_cons_succ]
      omega

/-- Every entry of the x.com image collection either came from the
accumulator or is a verbatim non-empty, non-profile `src` value. -/
theorem collectXImages_mem :
    ∀ (srcs : List (Option String)) (acc : List String) (e : String),
      e ∈ collectXImages srcs acc →
      e ∈ acc ∨ (e ≠ "" ∧ strContainsB e "profile" = false ∧ some e ∈ srcs)
  | [], acc, e, he => Or.inl (by simpa [collectXImages] using he)
  | none :: rest, acc, e, he => by
    rcases collectXImages_mem rest acc e he with h | h
    · exact Or.inl h
    · exact Or.inr ⟨h.1, h.2.1, by simp [h.2.2]⟩
  | some src :: rest, acc, e, he => by
    by_cases h0 : src = ""
    · rw [collectXImages, if_pos h0] at he
      rcases collectXImages_mem rest acc e he with h | h
      · exact Or.inl h
      · exact Or.inr ⟨h.1, h.2.1, by simp [h.2.2]⟩
    · by_cases hp : strContainsB src "profile"
      · rw [collectXImages, if_neg h0, if_pos hp] at he
        rcases collectXImages_mem rest acc e he with h | h
        · exact Or.inl h
        · exact Or.inr ⟨h.1, h.2.1, by simp [h.2.2]⟩
      · by_cases hm : src ∈ acc
        · rw [collectXImages, if_neg h0, if_neg (by simpa using hp), if_pos hm] at he
          rcases collectXImages_mem rest acc e he with h | h
          · exact Or.inl h
          · exact Or.inr ⟨h.1, h.2.1, by simp [h.2.2]⟩
        · rw [collectXImages, if_neg h0, if_neg (by simpa using hp), if_neg hm] at he
          rcases collectXImages_mem rest (acc ++ [src]) e he with h | h
          · rcases List.mem_append.mp h with h' | h'
            · exact Or.inl h'
            · have : e = src := by simpa using h'
              subst this
              exact Or.inr ⟨h0, by simpa using hp, by simp⟩
          · exact Or.inr ⟨h.1, h.2.1, by simp [h.2.2]⟩

/-- The x.com image collection never creates duplicates: the membership
guard compares the exact string that gets appended. -/
theorem collectXImages_nodup :
    ∀ (srcs : List (Option String)) (acc : List String),
      acc.Nodup → (collectXImages srcs acc).Nodup
  | [], acc, ha => by simpa [collectXImages] using ha
  | none :: rest, acc, ha => collectXImages_nodup rest acc ha
  | some src :: rest, acc, ha => by
    by_cases h0 : src = ""
    · rw [collectXImages, if_pos h0]
      exact collectXImages_nodup rest acc ha
    · by_cases hp : strContainsB src "profile"
      · rw [collectXImages, if_neg h0, if_pos hp]
        exact collectXImages_nodup rest acc ha
      · by_cases hm : src ∈ acc
        · rw [collectXImages, if_neg h0, if_neg (by simpa using hp), if_pos hm]
          exact collectXImages_nodup rest acc ha
        · rw [collectXImages, if_neg h0, if_neg (by simpa using hp), if_neg hm]
          exact collectXImages_nodup rest (acc ++ [src])
            (by simp [List.nodup_append, ha, hm])

/-- Every entry of the nitter image collection either came from the
accumulator or is `absolutize u src` for some verbatim non-empty,
non-profile `src` value. -/
theorem collectNitterImages_mem (u : String) :
    ∀ (srcs : List (Option String)) (acc : List String) (e : String),
      e ∈ collectNitterImages u srcs acc →
      e ∈ acc ∨ ∃ s, s ≠ "" ∧ strContainsB s "profile" = false ∧ some s ∈ srcs
        ∧ e = absolutize u s
  | [], acc, e, he => Or.inl (by simpa [collectNitterImages] using he)
  | none :: rest, acc, e, he => by
    rcases collectNitterImages_mem u rest acc e he with h | ⟨s, hs⟩
    · exact Or.inl h
    · exact Or.inr ⟨s, hs.1, hs.2.1, by simp [hs.2.2.1], hs.2.2.2⟩
  | some src :: rest, acc, e, he => by
    by_cases h0 : src = ""
    · rw [collectNitterImages, if_pos h0] at he
      rcases collectNitterImages_mem u rest acc e he with h | ⟨s, hs⟩
      · exact Or.inl h
      · exact Or.inr ⟨s, hs.1, hs.2.1, by simp [hs.2.2.1], hs.2.2.2⟩
    · by_cases hp : strContainsB src "profile"
      · rw [collectNitterImages, if_neg h0, if_pos hp] at he
        rcases collectNitterImages_mem u rest acc e he with h | ⟨s, hs⟩
        · exact Or.inl h
        · exact Or.inr ⟨s, hs.1, hs.2.1, by simp [hs.2.2.1], hs.2.2.2⟩
      · by_cases hm : src ∈ acc
        · rw [collectNitterImages, if_neg h0, if_neg (by simpa using hp), if_pos hm] at he
          rcases collectNitterImages_mem u rest acc e he with h | ⟨s, hs⟩
          · exact Or.inl h
          · exact Or.inr ⟨s, hs.1, hs.2.1, by simp [hs.2.2.1], hs.2.2.2⟩
        · rw [collectNitterImages, if_neg h0, if_neg (by simpa using hp), if_neg hm] at he
          rcases collectNitterImages_mem u rest (acc ++ [absolutize u src]) e he with h | ⟨s, hs⟩
          · rcases List.mem_append.mp h with h' | h'
            · exact Or.inl h'
            · have : e = absolutize u src := by simpa using h'
              exact Or.inr ⟨src, h0, by simpa using hp, by simp, this⟩
          · exact Or.inr ⟨s, hs.1, hs.2.1, by simp [hs.2.2.1], hs.2.2.2⟩

/-- No string equals itself with the `video_preview:` tag prepended. -/
theorem ne_video_tag (s : String) : s ≠ "video_preview:" ++ s := by
  intro h
  have := congrArg String.length h
  rw [String.length_append] at this
  have h14 : ("video_preview:" : String).length = 14 := by decide
  omega

/-! ### Concrete nodes used in witnesses and counterexamples -/

/-- An x.com node on which every optional lookup misses. -/
def allMissX : XNode := ⟨none, none, none, none, none, none, [], false, none⟩

/-- A nitter node on which every optional lookup misses. -/
def allMissN : NNode := ⟨none, none, none, none, [], [], [], [], false, none, none⟩

/-- The record `_extract_tweet_data` produces for `allMissX`. -/
def xDefaultRecord : TweetData :=
  { id := "unknown", url := "", text := "", timestamp := some "",
    stats := ⟨some 0, some 0, some 0⟩, media := [], has_video := false,
    has_media := false, video_preview_url := none, source := "x.com" }

/-- The record `_extract_nitter_tweet_data` produces for `allMissN`. -/
def nDefaultRecord : TweetData :=
  { id := "unknown", url := "", text := "", timestamp := some "",
    stats := ⟨some 0, some 0, some 0⟩, media := [], has_video := false,
    has_media := false, video_preview_url := none, source := "nitter" }

/-- A well-formed x.com node with tweet id `"1"`. -/
def dupNode : XNode :=
  ⟨some (some "https://x.com/u/status/1"), none, none, none, none, none, [], false, none⟩

/-- The record `dupNode` extracts to. -/
def dupRecord : TweetData :=
  { id := "1", url := "https://x.com/u/status/1", text := "", timestamp := some "",
    stats := ⟨some 0, some 0, some 0⟩, media := [], has_video := false,
    has_media := false, video_preview_url := none, source := "x.com" }

/-- An x.com node whose status link lacks `"/status/"`, so extraction
raises and returns `None`. -/
def badNode : XNode := ⟨some (some "x"), none, none, none, none, none, [], false, none⟩

/-! ### Claim C1 -/

/-- Claim C1 counterexample: the scroll loop performs NO id-based
de-duplication.  A cycle whose DOM holds the same node twice (same id
`"1"` both times) appends two records with the same id — the duplicate IS
re-appended, contradicting the claimed invariant. -/
theorem claim1_counterexample :
    ((scrapeXcomLoop (fun _ => [dupNode, dupNode]) (fun _ => 0) "u" none).tweets.map
      TweetData.id) = ["1", "1"] := by decide

/-- Claim C1 (amended): neither pagination loop de-duplicates by id —
every non-`None` extraction is appended unconditionally, so the resulting
list is exactly the accumulator followed by all non-`None` extractions in
first-seen order, duplicates included. -/
theorem claim1_append_without_dedup (u : String) (acc nacc : List TweetData)
    (nodes : List XNode) (nnodes : List NNode) :
    (processNodes u none nodes acc).1 = acc ++ nodes.filterMap (fun n => extractTweetData n u)
  ∧ (nitterLoop u none nnodes nacc).1
      = nacc ++ nnodes.filterMap (fun n => extractNitterTweetData n u) := by
  constructor
  · rw [processNodes_none_eq]
  · rw [nitterLoop_none_eq]

/-! ### Claim C2 -/

/-- Claim C2: with `max_tweets = m > 0`, both the x.com scroll loop and
the nitter loop return at most `m` records, and the inner loop returns
immediately upon reaching the cap, consuming only the node that reached it
and none of the remaining nodes of the cycle. -/
theorem claim2_max_tweets_cap (m : Nat) (hm : 0 < m) :
    (∀ (dom : Nat → List XNode) (h : Nat → Nat) (u : String),
      (scrapeXcomLoop dom h u (some m)).tweets.length ≤ m)
  ∧ (∀ (u : String) (nodes : List NNode),
      (nitterLoop u (some m) nodes []).1.length ≤ m)
  ∧ (∀ (u : String) (acc : List TweetData) (n : XNode) (rest : List XNode)
      (d : TweetData), extractTweetData n u = some d → m ≤ acc.length + 1 →
      processNodes u (some m) (n :: rest) acc = (acc ++ [d], true, 1)) := by
  refine ⟨?_, ?_, ?_⟩
  · intro dom h u
    unfold scrapeXcomLoop
    exact scrollLoopAux_len_le dom h u m hm maxScrolls 0 1 (h 0) [] [] (by simpa using hm)
  · intro u nodes
    exact nitterLoop_capped_le u m hm nodes [] (by simpa using hm)
  · intro u acc n rest d hx hfull
    have hcap : capReached (some m) (acc.length + 1) = true := by
      simp [capReached]; omega
    simp [processNodes, hx, hcap]

/-- Witness for C2 at `m = 1`: a cycle offering two nodes yields exactly
one record and stops after consuming the first node. -/
theorem claim2_max_tweets_cap_witness :
    (scrapeXcomLoop (fun _ => [dupNode, dupNode]) (fun _ => 0) "u" (some 1)).tweets.length ≤ 1
  ∧ processNodes "u" (some 1) [dupNode, dupNode] [] = ([dupRecord], true, 1) := by
  constructor
  · exact (claim2_max_tweets_cap 1 (by decide)).1 (fun _ => [dupNode, dupNode]) (fun _ => 0) "u"
  · have := (claim2_max_tweets_cap 1 (by decide)).2.2 "u" [] dupNode [dupNode] dupRecord
      (by decide) (by decide)
    simpa using this

/-! ### Claim C3 -/

/-- Claim C3 counterexample: when an extraction returns `None`, the node
IS re-processed.  With one DOM node whose extraction fails, the suffix
slice `tweet_elements[len(tweets):]` starts at 0 again in the next cycle:
the trace records the index range `[0, 1)` in BOTH cycles, so the same DOM
node is passed to the extractor twice — the claim's parenthetical about
null extractions is false. -/
theorem claim3_counterexample :
    (scrapeXcomLoop (fun _ => [badNode]) (fun j => if j = 0 then 0 else 1) "u" none).trace
        = [(0, 1), (0, 1)]
  ∧ extractTweetData badNode "u" = none := by decide

/-- Claim C3 (amended): each cycle processes exactly the DOM suffix beyond
the already-extracted count, and provided every extraction of a DOM node
returns non-`None`, consecutive cycles' index ranges are consistent
(`TraceOK`) and therefore pairwise disjoint: no node is passed to the
extractor twice.  (The counterexample shows the proviso is necessary.) -/
theorem claim3_suffix_no_reprocess (dom : Nat → List XNode) (h : Nat → Nat)
    (u : String) (mt : Option Nat)
    (H : ∀ (i : Nat), ∀ n ∈ dom i, extractTweetData n u ≠ none) :
    TraceOK 0 (scrapeXcomLoop dom h u mt).trace
  ∧ (∀ (s : Nat) (tr : List (Nat × Nat)) (i j : Nat),
      TraceOK s tr → i < j → j < tr.length →
      (tr.getD i (0, 0)).1 + (tr.getD i (0, 0)).2 ≤ (tr.getD j (0, 0)).1) := by
  constructor
  · unfold scrapeXcomLoop
    obtain ⟨ext, hext, hok⟩ :=
      scrollLoopAux_trace_ok dom h u mt H maxScrolls 0 1 (h 0) [] []
    rw [hext]
    simpa using hok
  · intro s tr i j hok hij hj
    exact traceOK_disjoint tr s i j hok hij hj

/-- Witness for C3: a run whose only DOM node always extracts successfully
has a consistent trace, and on the concrete consistent trace
`[(0, 2), (2, 1)]` the cycle ranges are disjoint. -/
theorem claim3_suffix_no_reprocess_witness :
    TraceOK 0 (scrapeXcomLoop (fun _ => [dupNode]) (fun _ => 0) "u" none).trace
  ∧ ([(0, 2), (2, 1)].getD 0 ((0 : Nat), (0 : Nat))).1
      + ([(0, 2), (2, 1)].getD 0 ((0 : Nat), (0 : Nat))).2
      ≤ ([(0, 2), (2, 1)].getD 1 ((0 : Nat), (0 : Nat))).1 := by
  have h := claim3_suffix_no_reprocess (fun _ => [dupNode]) (fun _ => 0) "u" none
    (by intro i n hn; simp only [List.mem_singleton] at hn; subst hn; decide)
  exact ⟨h.1, h.2 0 [(0, 2), (2, 1)] 0 1 ⟨rfl, rfl, trivial⟩ (by decide) (by decide)⟩

/-! ### Claim C4 -/

/-- Claim C4: the pagination loop always terminates — it executes at most
the fixed ceiling of 30 scroll cycles, and once the height readings are
constant from the current read index on, it exits within 2 further cycles
(one extended-wait re-check, then break). -/
theorem claim4_pagination_terminates (dom : Nat → List XNode) (h : Nat → Nat)
    (u : String) (mt : Option Nat) :
    (scrapeXcomLoop dom h u mt).cycles ≤ maxScrolls
  ∧ (∀ (fuel cycle ri lh : Nat) (tweets : List TweetData) (tr : List (Nat × Nat))
      (c : Nat), (∀ j, ri ≤ j → h j = c) →
      (scrollLoopAux dom h u mt fuel cycle ri lh tweets tr).cycles ≤ cycle + 2) := by
  constructor
  · have := scrollLoopAux_cycles_le dom h u mt maxScrolls 0 1 (h 0) [] []
    unfold scrapeXcomLoop
    omega
  · intro fuel cycle ri lh tweets tr c hc
    exact scrollLoopAux_converge dom h u mt c fuel cycle ri lh tweets tr hc

/-- Witness for C4: with a constant height function the loop, given 5
cycles of fuel, still stops within 2 cycles. -/
theorem claim4_pagination_terminates_witness :
    (scrollLoopAux (fun _ => []) (fun _ => 7) "u" none 5 0 0 0 [] []).cycles ≤ 0 + 2 :=
  (claim4_pagination_terminates (fun _ => []) (fun _ => 7) "u" none).2 5 0 0 0 [] [] 7
    (fun _ _ => rfl)

/-! ### Claim C5 -/

/-- Claim C5: per-backend extraction of a node on which every optional
lookup misses does not raise — it returns a record with `id = "unknown"`,
`url = ""`, `text = ""`, `timestamp = ""`, all three stats 0, and an empty
media list, for both backends; and extraction returns `None` exactly when
the surrounding id/url step raises (the sole unrecoverable path). -/
theorem claim5_extraction_never_throws :
    (∀ u, extractTweetData allMissX u = some xDefaultRecord)
  ∧ (∀ u, extractNitterTweetData allMissN u = some nDefaultRecord)
  ∧ (∀ (node : XNode) (u : String),
      (extractTweetData node u = none ↔ xIdUrl node.statusLink = none))
  ∧ (∀ (node : NNode) (u : String),
      (extractNitterTweetData node u = none ↔ nIdUrl node.tweetLink = none)) := by
  refine ⟨fun u => rfl, fun u => rfl, ?_, ?_⟩
  · intro node u
    cases hx : xIdUrl node.statusLink with
    | none => simp [extractTweetData, hx]
    | some p =>
      obtain ⟨tid, turl⟩ := p
      simp [extractTweetData, hx]
  · intro node u
    cases hx : nIdUrl node.tweetLink with
    | none => simp [extractNitterTweetData, hx]
    | some p =>
      obtain ⟨tid, turl⟩ := p
      simp [extractNitterTweetData, hx]

/-! ### Claim C6 -/

/-- A nitter node that collects the same relative URI twice (the raw-src
duplicate check misses converted entries) and then finds it as the video
poster. -/
def nitterDupNode : NNode :=
  ⟨none, none, none, none, [some "/p", some "/p"], [], [], [],
    true, some (some "/p"), none⟩

/-- Claim C6 counterexample: on the nitter backend a URI collected twice
(possible because the duplicate check compares the raw relative src with
already-converted entries) and then found as video poster leaves TWO
entries for that URI — `remove` deletes only the first untagged copy, so
an untagged duplicate survives next to the tagged entry, contradicting
the claimed "exactly one entry, tagged" outcome. -/
theorem claim6_counterexample :
    (extractNitterTweetData nitterDupNode "https://nitter.net/u").map TweetData.media
      = some ["https://nitter.net/u/p", "video_preview:https://nitter.net/u/p"]
  ∧ (((extractNitterTweetData nitterDupNode "https://nitter.net/u").map
      TweetData.media).getD []).count "https://nitter.net/u/p" = 1 := by decide

/-- Claim C6 (amended): provided the poster URI occurs exactly once in the
collected images and its tagged form was not itself collected, the tagging
step leaves exactly one entry for the URI, carrying the `video_preview:`
prefix; the x.com collection is duplicate-free, so the proviso holds
whenever the URI was collected there. -/
theorem claim6_video_tag_roundtrip (images : List String) (vurl : String)
    (h1 : images.count vurl = 1) (h2 : ("video_preview:" ++ vurl) ∉ images) :
    (videoTagPhase images vurl).count vurl = 0
  ∧ (videoTagPhase images vurl).count ("video_preview:" ++ vurl) = 1
  ∧ ∀ (srcs : List (Option String)), (collectXImages srcs []).Nodup := by
  refine ⟨?_, ?_, fun srcs => collectXImages_nodup srcs [] List.nodup_nil⟩
  · rw [videoTagPhase, List.count_append, List.count_erase_self, h1]
    have hne := ne_video_tag vurl
    simp [List.count_singleton', hne]
  · rw [videoTagPhase, List.count_append]
    have h0 : (images.erase vurl).count ("video_preview:" ++ vurl) = 0 :=
      List.count_eq_zero.mpr (fun hmem => h2 (List.erase_subset _ _ hmem))
    simp [h0]

/-- Witness for C6 at `images = ["a"]`, `vurl = "a"`. -/
theorem claim6_video_tag_roundtrip_witness :
    (videoTagPhase ["a"] "a").count "a" = 0
  ∧ (videoTagPhase ["a"] "a").count ("video_preview:" ++ "a") = 1
  ∧ ∀ (srcs : List (Option String)), (collectXImages srcs []).Nodup :=
  claim6_video_tag_roundtrip ["a"] "a" (by decide) (by decide)

/-! ### Claim C7 -/

/-- Claim C7: the mirror backend (nitter) is always attempted first; the
origin backend (x.com) is attempted only after the mirror attempt raised,
redirected away, timed out, or yielded zero records; and when the mirror
yields at least one record its result is returned with only the mirror
attempted. -/
theorem claim7_backend_order (na : NitterAttempt) (mt : Option Nat)
    (origR : List TweetData) :
    (scrapeTweets na mt origR).2.headD Backend.origin = Backend.mirror
  ∧ (Backend.origin ∈ (scrapeTweets na mt origR).2 →
      na.navError = true ∨ strContainsB na.currentUrl "nitter.net" = false
      ∨ na.timeout = true ∨ (nitterLoop na.currentUrl mt na.elements []).1 = [])
  ∧ ((nitterLoop na.currentUrl mt na.elements []).1 ≠ [] →
      na.navError = false → strContainsB na.currentUrl "nitter.net" = true →
      na.timeout = false →
      (scrapeTweets na mt origR).1 = (nitterLoop na.currentUrl mt na.elements []).1
      ∧ (scrapeTweets na mt origR).2 = [Backend.mirror]) := by
  by_cases h1 : na.navError = true
  · rw [scrapeTweets, if_pos h1]
    exact ⟨rfl, fun _ => Or.inl h1, fun _ h2 _ _ => absurd h1 (by simp [h2])⟩
  · have h1' : na.navError = false := by simpa using h1
    by_cases h2 : strContainsB na.currentUrl "nitter.net" = true
    · by_cases h3 : na.timeout = true
      · rw [scrapeTweets, if_neg (by simp [h1']), if_neg (by simp [h2]), if_pos h3]
        exact ⟨rfl, fun _ => Or.inr (Or.inr (Or.inl h3)),
          fun _ _ _ h4 => absurd h3 (by simp [h4])⟩
      · have h3' : na.timeout = false := by simpa using h3
        rw [scrapeTweets, if_neg (by simp [h1']), if_neg (by simp [h2]),
          if_neg (by simp [h3'])]
        by_cases h4 : (nitterLoop na.currentUrl mt na.elements []).2 = true
        · rw [if_pos h4]
          exact ⟨rfl, by simp, fun _ _ _ _ => ⟨rfl, rfl⟩⟩
        · rw [if_neg h4]
          by_cases h5 : (nitterLoop na.currentUrl mt na.elements []).1 = []
          · rw [if_neg (by simp [h5])]
            exact ⟨rfl, fun _ => Or.inr (Or.inr (Or.inr h5)),
              fun h5' => absurd h5 h5'⟩
          · rw [if_pos (by simpa using h5)]
            exact ⟨rfl, by simp, fun _ _ _ _ => ⟨rfl, rfl⟩⟩
    · have h2' : strContainsB na.currentUrl "nitter.net" = false := by simpa using h2
      rw [scrapeTweets, if_neg (by simp [h1']), if_pos (by simp [h2'])]
      exact ⟨rfl, fun _ => Or.inr (Or.inl h2'), fun _ _ h3 _ => absurd h2' (by simp [h3])⟩

/-- Witness for C7: a successful nitter attempt (valid URL, one timeline
node) returns the nitter records with only the mirror attempted. -/
theorem claim7_backend_order_witness :
    (scrapeTweets ⟨false, "https://nitter.net/u", false, [allMissN]⟩ none []).1
      = (nitterLoop "https://nitter.net/u" none [allMissN] []).1
  ∧ (scrapeTweets ⟨false, "https://nitter.net/u", false, [allMissN]⟩ none []).2
      = [Backend.mirror] :=
  (claim7_backend_order ⟨false, "https://nitter.net/u", false, [allMissN]⟩ none []).2.2
    (by decide) rfl (by decide) rfl

/-! ### Claim C8 -/

/-- A nitter node whose stats element exists but mentions only likes. -/
def likesOnlyNode : NNode := { allMissN with statsText := some "5 likes" }

/-- Claim C8 counterexample: when the nitter stats element exists but its
text carries only a likes line, the resulting stats dict holds ONLY the
`likes` key — `replies` and `retweets` are absent (not 0), contradicting
"contains all three fields". -/
theorem claim8_counterexample :
    (extractNitterTweetData likesOnlyNode "u").map TweetData.stats
      = some ⟨none, none, some 5⟩ := by decide

/-- Claim C8 (amended): on the origin backend every record carries all
three stat fields, each the parsed count of its element's text (0 on a
missing element); a non-numeric token parses to 0; and on the mirror
backend a MISSING stats element yields all three fields as 0 — but (per
the counterexample) a present stats element only yields the fields whose
keyword line occurs. -/
theorem claim8_stats_fields :
    (∀ (n : XNode) (u : String) (r : TweetData), extractTweetData n u = some r →
        r.stats.replies = some (match n.replyText with | none => 0 | some t => parseCount t)
      ∧ r.stats.retweets = some (match n.retweetText with | none => 0 | some t => parseCount t)
      ∧ r.stats.likes = some (match n.likeText with | none => 0 | some t => parseCount t))
  ∧ nitterStats none = ⟨some 0, some 0, some 0⟩
  ∧ (∀ t, pyIsDigit t = false → parseCount t = 0) := by
  refine ⟨?_, rfl, fun t ht => by simp [parseCount, ht]⟩
  intro n u r hr
  cases hx : xIdUrl n.statusLink with
  | none => rw [extractTweetData] at hr; rw [hx] at hr; exact absurd hr (by simp)
  | some p =>
    obtain ⟨tid, turl⟩ := p
    rw [extractTweetData] at hr
    rw [hx] at hr
    have := Option.some.inj hr
    rw [← this]
    exact ⟨rfl, rfl, rfl⟩

/-- Witness for C8: the all-miss x.com node's record has all three stats
present and equal to 0. -/
theorem claim8_stats_fields_witness :
    xDefaultRecord.stats.replies = some 0
  ∧ xDefaultRecord.stats.retweets = some 0
  ∧ xDefaultRecord.stats.likes = some 0 :=
  claim8_stats_fields.1 allMissX "u" xDefaultRecord rfl

/-! ### Claim C9 -/

/-- An x.com node carrying one origin-relative media image. -/
def relNode : XNode := ⟨none, none, none, none, none, none, [some "/media/a"], false, none⟩

/-- Claim C9 counterexample: the x.com extractor appends plain image URIs
verbatim — an origin-relative URI (starting with `/`) is NOT converted to
an absolute URI, contradicting the conversion clause. -/
theorem claim9_counterexample :
    (extractTweetData relNode "https://x.com/u").map TweetData.media = some ["/media/a"]
  ∧ pyStartsWith "/media/a" "/" = true := by decide

/-- Claim C9 (amended): both collections exclude empty and profile srcs;
the x.com collection is duplicate-free but appends srcs verbatim (no
conversion); the nitter collection converts relative srcs to
`base ++ src` but its duplicate check compares the raw src against the
stored converted entries, so a repeated relative src yields duplicate
entries (last conjunct). -/
theorem claim9_media_handling (u : String) (srcs : List (Option String)) (e : String) :
    (e ∈ collectXImages srcs [] → strContainsB e "profile" = false ∧ some e ∈ srcs)
  ∧ (collectXImages srcs []).Nodup
  ∧ (e ∈ collectNitterImages u srcs [] →
      ∃ s, some s ∈ srcs ∧ strContainsB s "profile" = false ∧
        ((pyStartsWith s "/" = false ∧ e = s)
          ∨ (pyStartsWith s "/" = true ∧ e = pyBase u ++ s)))
  ∧ ¬ (collectNitterImages "u" [some "/p", some "/p"] []).Nodup := by
  refine ⟨?_, collectXImages_nodup srcs [] List.nodup_nil, ?_, by decide⟩
  · intro he
    rcases collectXImages_mem srcs [] e he with h | h
    · simp at h
    · exact ⟨h.2.1, h.2.2⟩
  · intro he
    rcases collectNitterImages_mem u srcs [] e he with h | ⟨s, hs1, hs2, hs3, hs4⟩
    · simp at h
    · refine ⟨s, hs3, hs2, ?_⟩
      by_cases hst : pyStartsWith s "/" = true
      · exact Or.inr ⟨hst, by rw [hs4, absolutize, if_pos hst]⟩
      · exact Or.inl ⟨by simpa using hst, by rw [hs4, absolutize, if_neg hst]⟩

/-- Witness for C9: a verbatim non-profile src on x.com, and a converted
relative src on nitter. -/
theorem claim9_media_handling_witness :
    (strContainsB "a" "profile" = false ∧ some "a" ∈ [some "a"])
  ∧ ∃ s, some s ∈ [some "/p"] ∧ strContainsB s "profile" = false ∧
      ((pyStartsWith s "/" = false ∧ "u/p" = s)
        ∨ (pyStartsWith s "/" = true ∧ "u/p" = pyBase "u" ++ s)) :=
  ⟨(claim9_media_handling "u" [some "a"] "a").1 (by decide),
   (claim9_media_handling "u" [some "/p"] "u/p").2.2.1 (by decide)⟩

/-! ### Claim C10 -/

/-- Claim C10: `save_tweets` on an empty list returns `None` and writes
nothing; on a non-empty list it writes an object whose `tweet_count`
equals the length of its `tweets` field (the input list) and returns the
output path — so any written file is non-empty and internally
consistent. -/
theorem claim10_save_contract (un sa : String) (ts : List TweetData) (f : String) :
    (ts = [] → save_tweets un sa ts f = none)
  ∧ (ts ≠ [] → ∃ d, save_tweets un sa ts f = some (f, d)
      ∧ d.tweet_count = d.tweets.length ∧ d.tweets = ts ∧ 0 < d.tweet_count) := by
  constructor
  · intro h; subst h; rfl
  · intro h
    refine ⟨⟨un, sa, ts.length, ts⟩, ?_, rfl, rfl, ?_⟩
    · rw [save_tweets, if_neg (by simpa using h)]
    · simpa using List.length_pos.mpr h

/-- Witness for C10 on the empty list and a one-record list. -/
theorem claim10_save_contract_witness :
    save_tweets "user" "now" [] "out.json" = none
  ∧ ∃ d, save_tweets "user" "now" [xDefaultRecord] "out.json" = some ("out.json", d)
      ∧ d.tweet_count = d.tweets.length ∧ d.tweets = [xDefaultRecord]
      ∧ 0 < d.tweet_count :=
  ⟨(claim10_save_contract "user" "now" [] "out.json").1 rfl,
   (claim10_save_contract "user" "now" [xDefaultRecord] "out.json").2 (by simp)⟩

end Tweedhat
